import Mathlib

/-!
# OptiHead: the OpenGL/CUDA barycentric rasterizer

A shallow embedding of `src/lib/rasterizer/gl_rasterizer.cpp`.

* The three GLSL stages of `initShader` are embedded as functions over
  rational vectors (`vertexShader`, `geometryShader`, `fragmentShader`).
* `rasterize` is embedded as the list of library calls it issues, in source
  order (`rasterizeOps`), executed by `exec` on an explicit `World` that holds
  the graphics objects, the interop registrations and the buffer contents.
* Floating-point values are idealised as rationals; the constants the source
  uses (`0.0`, `1.0`) are exact in both.
-/

namespace OptiHead

/-! ## Vectors -/

/-- GLSL `vec3`. -/
structure Vec3 where
  x : ℚ
  y : ℚ
  z : ℚ
deriving DecidableEq

/-- GLSL `vec4`. -/
structure Vec4 where
  x : ℚ
  y : ℚ
  z : ℚ
  w : ℚ
deriving DecidableEq

/-- GLSL constructor `vec4(v, a)` from a `vec3` and a scalar. -/
def Vec4.ofVec3 (v : Vec3) (a : ℚ) : Vec4 := ⟨v.x, v.y, v.z, a⟩

/-- Channel `k` (0..3) of a `vec4`, as laid out in an RGBA texel. -/
def Vec4.chan (v : Vec4) (k : Nat) : ℚ :=
  match k with
  | 0 => v.x
  | 1 => v.y
  | 2 => v.z
  | _ => v.w

/-! ## The shader stages of `initShader` -/

/-- Interface block `VS_OUT` together with the built-in `gl_Position`. -/
structure VSOut where
  gl_Position : Vec4
  bary : Vec3
deriving DecidableEq

/-- Vertex stage (`vShaderCode`): `gl_Position = aPos; vs_out.bary = vec3(0.0, 0.0, 0.0);`. -/
def vertexShader (aPos : Vec4) : VSOut :=
  { gl_Position := aPos, bary := ⟨0, 0, 0⟩ }

/-- Registers of one geometry-shader invocation: the output variables, the
vertices emitted into the strip under construction, and the finished strips. -/
structure GSState where
  gl_Position : Vec4
  bary : Vec3
  strip : List VSOut
  prims : List (List VSOut)

/-- GLSL `EmitVertex()`: append the current outputs to the current strip. -/
def EmitVertex (s : GSState) : GSState :=
  { s with strip := s.strip ++ [{ gl_Position := s.gl_Position, bary := s.bary }] }

/-- GLSL `EndPrimitive()`: close the current strip. -/
def EndPrimitive (s : GSState) : GSState :=
  { s with prims := s.prims ++ [s.strip], strip := [] }

/-- Body of `main` of the geometry stage (`gShaderCode`), statement by
statement, on the three inputs `gl_in[0..2]` / `gs_in[0..2]`. -/
def geometryMain (gl_in0 gl_in1 gl_in2 : VSOut) (s : GSState) : GSState :=
  let s := { s with bary := ⟨1, 0, 0⟩ }
  let s := { s with gl_Position := gl_in0.gl_Position }
  let s := EmitVertex s
  let s := { s with bary := ⟨0, 1, 0⟩ }
  let s := { s with gl_Position := gl_in1.gl_Position }
  let s := EmitVertex s
  let s := { s with bary := ⟨0, 0, 1⟩ }
  let s := { s with gl_Position := gl_in2.gl_Position }
  let s := EmitVertex s
  EndPrimitive s

/-- One geometry-shader invocation started with outputs `undef` (GLSL leaves
them undefined) and nothing emitted; the result is the list of strips. -/
def geometryShader (undef : VSOut) (gl_in0 gl_in1 gl_in2 : VSOut) : List (List VSOut) :=
  (geometryMain gl_in0 gl_in1 gl_in2
    { gl_Position := undef.gl_Position, bary := undef.bary, strip := [], prims := [] }).prims

/-- Fragment stage (`fShaderCode`): `gBary = vec4(fs_in.bary, 1.0);`. -/
def fragmentShader (fs_in_bary : Vec3) : Vec4 :=
  Vec4.ofVec3 fs_in_bary 1

/-! ## Fixed-function stages between the shaders -/

/-- Interpolation weights of a fragment inside a triangle. -/
structure Weights where
  a : ℚ
  b : ℚ
  c : ℚ
deriving DecidableEq

/-- Fixed-function interpolation of a `vec3` varying over a triangle. -/
def interpolate (wt : Weights) (t0 t1 t2 : Vec3) : Vec3 :=
  { x := wt.a * t0.x + wt.b * t1.x + wt.c * t2.x
    y := wt.a * t0.y + wt.b * t1.y + wt.c * t2.y
    z := wt.a * t0.z + wt.b * t1.z + wt.c * t2.z }

/-- Triangles of a triangle strip: every window of three consecutive vertices. -/
def stripTriangles {α : Type} : List α → List (α × α × α)
  | a :: b :: c :: rest => (a, b, c) :: stripTriangles (b :: c :: rest)
  | _ => []

/-! ## Machine integers -/

/-- A C `int` result: two's-complement wrap of a mathematical integer to 32 bits. -/
def wrapInt (z : Int) : Int := (z + 2 ^ 31) % 2 ^ 32 - 2 ^ 31

/-- Conversion of a C `int` to `size_t` (64 bits). -/
def toSizeT (z : Int) : Nat := (z % 2 ^ 64).toNat

/-- The constant `sizeof(float)`. -/
def sizeofFloat : Nat := 4

/-- The constant `sizeof(uint32_t)`. -/
def sizeofUInt32 : Nat := 4

/-- The expression `glctx.width * 4 * sizeof(float)`: `width * 4` is an `int`
product, which is then converted to `size_t` and multiplied by `sizeof(float)`. -/
def rowBytes (width : Int) : Nat :=
  (toSizeT (wrapInt (width * 4)) * sizeofFloat) % 2 ^ 64

/-! ## Objects, calls and the state they act on -/

/-- OpenGL object names held by `RasterizeGLState s`, and the local `shader`. -/
inductive GLObj
  | glFBO | glVAO | glVBO | glEBO | glOutBary | shader
deriving DecidableEq

/-- Interop registrations held by `RasterizeGLState s`. -/
inductive CudaRes
  | cudaVBO | cudaEBO | cudaOutBary
deriving DecidableEq

/-- Buffer binding targets used by `rasterize`. -/
inductive BufferTarget
  | ARRAY_BUFFER | ELEMENT_ARRAY_BUFFER
deriving DecidableEq

/-- Device pointers named in `rasterize`. -/
inductive DevPtr
  | vertexPtr | elementPtr | glVertexPtr | glElementPtr | outputPtr | cudaOut
deriving DecidableEq

/-- One library call of `rasterize`, with the arguments the source passes. -/
inductive Op
  | initContext (width height cudaDeviceIdx : Int)
  | glGenFramebuffers (o : GLObj)
  | glGenVertexArrays (o : GLObj)
  | glGenBuffers (o : GLObj)
  | glGenTextures (o : GLObj)
  | deviceGuard
  | getCurrentCUDAStream
  | initShader
  | glBindVertexArray (o : Option GLObj)
  | glBindBuffer (target : BufferTarget) (o : GLObj)
  | glBufferData (target : BufferTarget) (bytes : Nat)
  | glVertexAttribPointer (index size stride offset : Nat)
  | cudaGraphicsGLRegisterBuffer (r : CudaRes) (o : GLObj)
  | cudaGraphicsMapResources (r : CudaRes) (stream : Nat)
  | cudaGraphicsResourceGetMappedPointer (p : DevPtr) (r : CudaRes)
  | cudaMemcpyAsync (dst src : DevPtr) (bytes : Nat) (stream : Nat)
  | cudaGraphicsUnmapResources (r : CudaRes) (stream : Nat)
  | glEnableVertexAttribArray (index : Nat)
  | glBindFramebuffer (o : Option GLObj)
  | glBindTexture (o : Option GLObj)
  | glTexImage2D (width height : Int)
  | glTexParameteri
  | glFramebufferTexture2D (o : GLObj)
  | glDrawBuffers
  | glCheckFramebufferStatus
  | coutFramebufferNotComplete
  | shaderUse
  | glClearColor (r g b a : ℚ)
  | glClear
  | glDrawElements (count : Nat)
  | torchEmpty (sizes : List Int)
  | cudaGraphicsGLRegisterImage (r : CudaRes) (o : GLObj)
  | cudaGraphicsSubResourceGetMappedArray (p : DevPtr) (r : CudaRes)
  | cudaMemcpy2DFromArrayAsync (dst : DevPtr) (dpitch : Nat) (src : DevPtr)
      (wOffset hOffset width height : Nat) (stream : Nat)
  | cudaGraphicsUnregisterResource (r : CudaRes)
  | destroyContext
deriving DecidableEq

/-- Element types of a tensor. -/
inductive ScalarType
  | kFloat32 | kOther
deriving DecidableEq

/-- A `torch::Tensor`: sizes, element type and flat contiguous storage. -/
structure Tensor where
  sizes : List Int
  dtype : ScalarType
  data : Nat → ℚ

/-- Contents of the output texture: texel `(x, y)`. -/
abbrev Image := Nat → Nat → Vec4

/-- Arguments of `rasterize`. -/
structure Inputs where
  vertices : List ℚ
  indices : List Nat
  width : Int
  height : Int
  cudaDeviceIdx : Int

/-- What the call cannot control: which checked call reports an error, the
framebuffer status, the current stream, the fixed-function rasterizer (the
weights of a covered pixel of a triangle given by three clip-space positions),
and the contents of storage that was allocated but not written. -/
structure Env where
  fails : Nat → Bool
  framebufferComplete : Bool
  stream : Nat
  cover : Vec4 → Vec4 → Vec4 → Nat → Nat → Option Weights
  undefFloat : Nat → ℚ
  undefIndex : Nat → Nat
  undefTexel : Nat → Nat → Vec4
  undefVarying : VSOut

/-- Graphics and interop state visible to one thread. -/
structure World where
  trace : List Op
  contexts : Nat
  glObjects : List GLObj
  registrations : List (CudaRes × GLObj)
  mapped : List CudaRes
  mappedPtr : List (DevPtr × CudaRes)
  vertexArray : Option GLObj
  arrayBuffer : Option GLObj
  framebuffer : Option GLObj
  texture2D : Option GLObj
  programInUse : Bool
  attrib0Buffer : Option GLObj
  attrib0Format : Nat × Nat × Nat
  attrib0Enabled : Bool
  elementBuffer : Option GLObj
  colorAttachment0 : Option GLObj
  vbo : List ℚ
  ebo : List Nat
  clearColor : Vec4
  image : Image
  out : Option Tensor

/-- State before any call: nothing allocated, OpenGL defaults. -/
def World.init (env : Env) : World :=
  { trace := [], contexts := 0, glObjects := [], registrations := [], mapped := [],
    mappedPtr := [], vertexArray := none, arrayBuffer := none, framebuffer := none,
    texture2D := none, programInUse := false, attrib0Buffer := none,
    attrib0Format := (0, 0, 0), attrib0Enabled := false, elementBuffer := none,
    colorAttachment0 := none, vbo := [], ebo := [], clearColor := ⟨0, 0, 0, 0⟩,
    image := env.undefTexel, out := none }

/-! ## The draw -/

/-- Attribute 0 of vertex `i`: four consecutive floats of the vertex buffer
(size 4, stride `4 * sizeof(float)`, offset 0); a read past the end of the
buffer yields an undefined value. -/
def fetchVertex (undef : Nat → ℚ) (vbo : List ℚ) (i : Nat) : Vec4 :=
  { x := vbo.getD (4 * i) (undef (4 * i))
    y := vbo.getD (4 * i + 1) (undef (4 * i + 1))
    z := vbo.getD (4 * i + 2) (undef (4 * i + 2))
    w := vbo.getD (4 * i + 3) (undef (4 * i + 3)) }

/-- Primitive assembly for `GL_TRIANGLES`: consecutive index triples; an
incomplete trailing triple is dropped. -/
def assembleTriangles : List Nat → List (Nat × Nat × Nat)
  | a :: b :: c :: rest => (a, b, c) :: assembleTriangles rest
  | _ => []

/-- Rasterization and fragment stage for one triangle: every covered pixel
receives the fragment-shader output for the interpolated varying; the other
pixels keep their value (no blending, no depth test). -/
def shadeTriangle (env : Env) (img : Image) (t : VSOut × VSOut × VSOut) : Image :=
  fun x y =>
    match env.cover t.1.gl_Position t.2.1.gl_Position t.2.2.gl_Position x y with
    | some wt => fragmentShader (interpolate wt t.1.bary t.2.1.bary t.2.2.bary)
    | none => img x y

/-- The whole pipeline for one input triangle with vertex indices `idx`:
vertex stage on the three fetched vertices, geometry stage, then every
triangle of every emitted strip is rasterized and shaded. -/
def drawTriangle (env : Env) (vbo : List ℚ) (img : Image) (idx : Nat × Nat × Nat) : Image :=
  let v0 := vertexShader (fetchVertex env.undefFloat vbo idx.1)
  let v1 := vertexShader (fetchVertex env.undefFloat vbo idx.2.1)
  let v2 := vertexShader (fetchVertex env.undefFloat vbo idx.2.2)
  ((geometryShader env.undefVarying v0 v1 v2).flatMap stripTriangles).foldl
    (shadeTriangle env) img

/-- Effect of `glDrawElements(GL_TRIANGLES, count, GL_UNSIGNED_INT, 0)` on the
colour attachment: the first `count` indices of the element buffer, triangle
after triangle in order. -/
def drawElements (env : Env) (vbo : List ℚ) (ebo : List Nat) (count : Nat) (img : Image) : Image :=
  (assembleTriangles (ebo.take count)).foldl (drawTriangle env vbo) img

/-! ## The copies -/

/-- Device-to-device copy of `n` elements over the front of a buffer. -/
def overwrite {α : Type} (dst src : List α) (n : Nat) : List α :=
  src.take n ++ dst.drop n

/-- Effect of `cudaMemcpy2DFromArrayAsync(dst, dpitch, src, wOffset, hOffset,
width, height)` on float storage `dst` (for `width ≤ dpitch`): the byte at
offset `b` of `dst` is written iff it lies in one of the `height` rows of
`width` bytes that start `dpitch` bytes apart; a texel is 16 bytes, a channel 4. -/
def memcpy2DFromArray (dst : Nat → ℚ) (dpitch : Nat) (src : Image)
    (wOffset hOffset width height : Nat) : Nat → ℚ :=
  fun i =>
    let row := 4 * i / dpitch
    let col := 4 * i % dpitch
    if row < height ∧ col < width then
      (src ((wOffset + col) / 16) (hOffset + row)).chan ((wOffset + col) / 4 % 4)
    else dst i

/-- Byte offsets of the destination written by a 2D copy of `height` rows of
`width` bytes with destination pitch `dpitch`, in the order they are written. -/
def memcpy2DDstBytes (dpitch width height : Nat) : List Nat :=
  (List.range height).flatMap (fun r => (List.range width).map (fun c => r * dpitch + c))

/-- Byte length of a contiguous tensor of the given sizes and element size. -/
def tensorBytes (sizes : List Int) (elemSize : Nat) : Int :=
  sizes.prod * elemSize

/-! ## Effect of each call -/

/-- The draw has everything it needs bound: the framebuffer with the output
texture attached, the vertex array with attribute 0 reading 4-float records
from the vertex buffer and with the element buffer, and the program. -/
def drawReady (w : World) : Bool :=
  decide (w.framebuffer = some GLObj.glFBO) && decide (w.colorAttachment0 = some GLObj.glOutBary)
    && decide (w.vertexArray = some GLObj.glVAO) && decide (w.attrib0Buffer = some GLObj.glVBO)
    && decide (w.attrib0Format = (4, 16, 0)) && w.attrib0Enabled
    && decide (w.elementBuffer = some GLObj.glEBO) && w.programInUse

/-- Modelled from the spec: `initContext` (declared in `gl_context.h`) creates
an offscreen context of the given resolution on the named device and makes it
current; it leaves the sizes stored in `glctx` as they are. -/
def initContext (w : World) : World :=
  { w with contexts := w.contexts + 1 }

/-- Modelled from the spec: `destroyContext` (declared in `gl_context.h`)
releases the context and the thread-current binding, and the OpenGL objects of
the call are destroyed with the context. It is given `glctx` only, so it cannot
reach the interop registrations held in `s`. -/
def destroyContext (w : World) : World :=
  { w with contexts := w.contexts - 1, glObjects := [], vertexArray := none,
           arrayBuffer := none, framebuffer := none, texture2D := none,
           programInUse := false, attrib0Buffer := none, attrib0Enabled := false,
           elementBuffer := none, colorAttachment0 := none }

/-- Effect of a call that reports no error. Calls whose effect is outside the
modelled state (parameters, queries) leave the state as it is. -/
def step (env : Env) (inp : Inputs) (op : Op) (w : World) : World :=
  match op with
  | .initContext _ _ _ => initContext w
  | .glGenFramebuffers o => { w with glObjects := o :: w.glObjects }
  | .glGenVertexArrays o => { w with glObjects := o :: w.glObjects }
  | .glGenBuffers o => { w with glObjects := o :: w.glObjects }
  | .glGenTextures o => { w with glObjects := o :: w.glObjects }
  | .initShader => { w with glObjects := GLObj.shader :: w.glObjects }
  | .glBindVertexArray o => { w with vertexArray := o }
  | .glBindBuffer .ARRAY_BUFFER o => { w with arrayBuffer := some o }
  | .glBindBuffer .ELEMENT_ARRAY_BUFFER o =>
      if w.vertexArray = some GLObj.glVAO then { w with elementBuffer := some o } else w
  | .glBufferData .ARRAY_BUFFER bytes =>
      if w.arrayBuffer = some GLObj.glVBO then
        { w with vbo := (List.range (bytes / sizeofFloat)).map env.undefFloat }
      else w
  | .glBufferData .ELEMENT_ARRAY_BUFFER bytes =>
      if w.elementBuffer = some GLObj.glEBO then
        { w with ebo := (List.range (bytes / sizeofUInt32)).map env.undefIndex }
      else w
  | .glVertexAttribPointer index size stride offset =>
      if w.vertexArray = some GLObj.glVAO ∧ index = 0 then
        { w with attrib0Buffer := w.arrayBuffer, attrib0Format := (size, stride, offset) }
      else w
  | .glEnableVertexAttribArray index =>
      if w.vertexArray = some GLObj.glVAO ∧ index = 0 then { w with attrib0Enabled := true } else w
  | .cudaGraphicsGLRegisterBuffer r o => { w with registrations := (r, o) :: w.registrations }
  | .cudaGraphicsGLRegisterImage r o => { w with registrations := (r, o) :: w.registrations }
  | .cudaGraphicsMapResources r _ => { w with mapped := r :: w.mapped }
  | .cudaGraphicsResourceGetMappedPointer p r =>
      if r ∈ w.mapped then { w with mappedPtr := (p, r) :: w.mappedPtr } else w
  | .cudaGraphicsSubResourceGetMappedArray p r =>
      if r ∈ w.mapped then { w with mappedPtr := (p, r) :: w.mappedPtr } else w
  | .cudaMemcpyAsync dst src bytes _ =>
      match (w.mappedPtr.lookup dst).bind w.registrations.lookup, src with
      | some .glVBO, .vertexPtr =>
          { w with vbo := overwrite w.vbo inp.vertices (bytes / sizeofFloat) }
      | some .glEBO, .elementPtr =>
          { w with ebo := overwrite w.ebo inp.indices (bytes / sizeofUInt32) }
      | _, _ => w
  | .cudaGraphicsUnmapResources r _ =>
      { w with mapped := w.mapped.erase r, mappedPtr := w.mappedPtr.filter (fun p => p.2 ≠ r) }
  | .cudaGraphicsUnregisterResource r =>
      { w with registrations := w.registrations.eraseP (fun p => p.1 = r) }
  | .glBindFramebuffer o => { w with framebuffer := o }
  | .glBindTexture o => { w with texture2D := o }
  | .glTexImage2D _ _ =>
      if w.texture2D = some GLObj.glOutBary then { w with image := env.undefTexel } else w
  | .glFramebufferTexture2D o =>
      if w.framebuffer = some GLObj.glFBO then { w with colorAttachment0 := some o } else w
  | .shaderUse => { w with programInUse := decide (GLObj.shader ∈ w.glObjects) }
  | .glClearColor r g b a => { w with clearColor := ⟨r, g, b, a⟩ }
  | .glClear =>
      if w.framebuffer = some GLObj.glFBO ∧ w.colorAttachment0 = some GLObj.glOutBary then
        { w with image := fun _ _ => w.clearColor }
      else w
  | .glDrawElements count =>
      if drawReady w then { w with image := drawElements env w.vbo w.ebo count w.image } else w
  | .torchEmpty sizes =>
      { w with out := some { sizes := sizes, dtype := ScalarType.kFloat32, data := env.undefFloat } }
  | .cudaMemcpy2DFromArrayAsync dst dpitch src wOffset hOffset width height _ =>
      match dst, (w.mappedPtr.lookup src).bind w.registrations.lookup, w.out with
      | .outputPtr, some .glOutBary, some t =>
          { w with out := some { t with
              data := memcpy2DFromArray t.data dpitch w.image wOffset hOffset width height } }
      | _, _, _ => w
  | .destroyContext => destroyContext w
  | .deviceGuard => w
  | .getCurrentCUDAStream => w
  | .glTexParameteri => w
  | .glDrawBuffers => w
  | .glCheckFramebufferStatus => w
  | .coutFramebufferNotComplete => w

/-! ## `rasterize` -/

/-- The calls of `rasterize`, in source order. The only branch is the
diagnostic after `glCheckFramebufferStatus`. -/
def rasterizeOps (env : Env) (inp : Inputs) : List Op :=
  let vertexCount := inp.vertices.length
  let elementCount := inp.indices.length
  let stream := env.stream
  [ Op.initContext inp.width inp.height inp.cudaDeviceIdx,
    Op.glGenFramebuffers GLObj.glFBO,
    Op.glGenVertexArrays GLObj.glVAO,
    Op.glGenBuffers GLObj.glVBO,
    Op.glGenBuffers GLObj.glEBO,
    Op.glGenTextures GLObj.glOutBary,
    Op.deviceGuard,
    Op.getCurrentCUDAStream,
    Op.initShader,
    Op.glBindVertexArray (some GLObj.glVAO),
    Op.glBindBuffer BufferTarget.ARRAY_BUFFER GLObj.glVBO,
    Op.glBufferData BufferTarget.ARRAY_BUFFER (vertexCount * sizeofFloat),
    Op.glVertexAttribPointer 0 4 (4 * sizeofFloat) 0,
    Op.cudaGraphicsGLRegisterBuffer CudaRes.cudaVBO GLObj.glVBO,
    Op.cudaGraphicsMapResources CudaRes.cudaVBO stream,
    Op.cudaGraphicsResourceGetMappedPointer DevPtr.glVertexPtr CudaRes.cudaVBO,
    Op.cudaMemcpyAsync DevPtr.glVertexPtr DevPtr.vertexPtr (vertexCount * sizeofFloat) stream,
    Op.cudaGraphicsUnmapResources CudaRes.cudaVBO stream,
    Op.glEnableVertexAttribArray 0,
    Op.glBindBuffer BufferTarget.ELEMENT_ARRAY_BUFFER GLObj.glEBO,
    Op.glBufferData BufferTarget.ELEMENT_ARRAY_BUFFER (elementCount * sizeofUInt32),
    Op.cudaGraphicsGLRegisterBuffer CudaRes.cudaEBO GLObj.glEBO,
    Op.cudaGraphicsMapResources CudaRes.cudaEBO stream,
    Op.cudaGraphicsResourceGetMappedPointer DevPtr.glElementPtr CudaRes.cudaEBO,
    Op.cudaMemcpyAsync DevPtr.glElementPtr DevPtr.elementPtr (elementCount * sizeofUInt32) stream,
    Op.cudaGraphicsUnmapResources CudaRes.cudaEBO stream,
    Op.glBindVertexArray none,
    Op.glBindFramebuffer (some GLObj.glFBO),
    Op.glBindTexture (some GLObj.glOutBary),
    Op.glTexImage2D inp.width inp.height,
    Op.glTexParameteri,
    Op.glTexParameteri,
    Op.glFramebufferTexture2D GLObj.glOutBary,
    Op.glDrawBuffers,
    Op.glCheckFramebufferStatus ]
  ++ (if env.framebufferComplete then [] else [Op.coutFramebufferNotComplete])
  ++
  [ Op.glBindTexture none,
    Op.glBindFramebuffer none,
    Op.shaderUse,
    Op.glBindFramebuffer (some GLObj.glFBO),
    Op.glClearColor 1 1 0 1,
    Op.glClear,
    Op.glBindVertexArray (some GLObj.glVAO),
    Op.glDrawElements elementCount,
    Op.torchEmpty [inp.height, inp.width, 4],
    Op.cudaGraphicsGLRegisterImage CudaRes.cudaOutBary GLObj.glOutBary,
    Op.cudaGraphicsMapResources CudaRes.cudaOutBary stream,
    Op.cudaGraphicsSubResourceGetMappedArray DevPtr.cudaOut CudaRes.cudaOutBary,
    Op.cudaMemcpy2DFromArrayAsync DevPtr.outputPtr (rowBytes inp.width) DevPtr.cudaOut 0 0
      (rowBytes inp.width) (toSizeT inp.height) stream,
    Op.cudaGraphicsUnmapResources CudaRes.cudaOutBary stream,
    Op.cudaGraphicsUnregisterResource CudaRes.cudaOutBary,
    Op.destroyContext ]

/-- Modelled from the spec: the macros `GL_CHECK_ERROR` and `CUDA_CHECK_ERROR`
(header `gl_utils.h`) and the calls into `gl_context.h`, `gl_shader.h` and the
tensor runtime abort the invocation when they fail. The status query and the
diagnostic print of lines 141-142 are neither wrapped nor acted upon. -/
def Op.mayAbort : Op → Bool
  | .glCheckFramebufferStatus => false
  | .coutFramebufferNotComplete => false
  | _ => true

/-- The framebuffer binding after a call, from the binding before it. -/
def framebufferAfter (op : Op) (fb : Option GLObj) : Option GLObj :=
  match op with
  | .glBindFramebuffer o => o
  | .destroyContext => none
  | _ => fb

/-- Errors OpenGL raises by itself: a clear or a draw into a bound framebuffer
object that is not complete reports `GL_INVALID_FRAMEBUFFER_OPERATION`. The
framebuffer object of the call is complete iff the status query says so. -/
def raisesError (env : Env) (op : Op) (w : World) : Bool :=
  match op with
  | .glClear => decide (w.framebuffer = some GLObj.glFBO) && !env.framebufferComplete
  | .glDrawElements _ => decide (w.framebuffer = some GLObj.glFBO) && !env.framebufferComplete
  | _ => false

/-- How an invocation ends: a fatal error (with the state reached), or
`return out` (with the final state, whose field `out` is the tensor). -/
inductive Outcome
  | aborted (w : World)
  | returned (w : World)

/-- State in which the outcome was reached. -/
def Outcome.world : Outcome → World
  | .aborted w => w
  | .returned w => w

/-- The returned tensor, if the invocation returned. -/
def Outcome.result : Outcome → Option Tensor
  | .aborted _ => none
  | .returned w => w.out

/-- Whether the invocation returned. -/
def Outcome.isReturned : Outcome → Bool
  | .aborted _ => false
  | .returned _ => true

/-- Issue `op`: record it and apply its effect. -/
def issue (env : Env) (inp : Inputs) (w : World) (op : Op) : World :=
  step env inp op { w with trace := w.trace ++ [op] }

/-- Run the calls in order; `k` counts the calls that can abort issued so far,
and the `k`-th of them reports an error iff `env.fails k` or OpenGL raises one
in the state the call is issued in. A call that reports an error is recorded
and ends the invocation. -/
def exec (env : Env) (inp : Inputs) : List Op → Nat → World → Outcome
  | [], _, w => Outcome.returned w
  | op :: rest, k, w =>
      if op.mayAbort then
        if env.fails k || raisesError env op w then
          Outcome.aborted { w with trace := w.trace ++ [op] }
        else exec env inp rest (k + 1) (issue env inp w op)
      else exec env inp rest k (issue env inp w op)

/-- The function `rasterize(vertices, indices, width, height, cudaDeviceIdx)`
started in state `w`. -/
def rasterize (env : Env) (inp : Inputs) (w : World) : Outcome :=
  exec env inp (rasterizeOps env inp) 0 w

/-- State in which `rasterize` returns, when it does: every call issued. -/
def finalWorld (env : Env) (inp : Inputs) (w : World) : World :=
  (rasterizeOps env inp).foldl (issue env inp) w

/-- The call is the indexed draw. -/
def Op.isDraw : Op → Bool
  | .glDrawElements _ => true
  | _ => false

/-- State in which the draw is issued: every call before it issued. -/
def worldAtDraw (env : Env) (inp : Inputs) (w : World) : World :=
  ((rasterizeOps env inp).takeWhile (fun op => !op.isDraw)).foldl (issue env inp) w

/-- The calls of the complete-framebuffer case up to and including `glClear`
(35 calls up to the status query, then 6), with the diagnostic print inserted
after the status query. -/
def callsUntilClear (env : Env) (inp : Inputs) : List Op :=
  (rasterizeOps { env with framebufferComplete := true } inp).take 35
    ++ Op.coutFramebufferNotComplete
      :: ((rasterizeOps { env with framebufferComplete := true } inp).drop 35).take 6

/-! ## Observations on an invocation -/

/-- The calls issued by the invocation itself: the trace of the outcome
without the trace of the state it started in. -/
def callTrace (w : World) (o : Outcome) : List Op :=
  o.world.trace.drop w.trace.length

/-- Events of the interop protocol. -/
inductive Event
  | map (r : CudaRes) (stream : Nat)
  | copy (stream : Nat)
  | unmap (r : CudaRes) (stream : Nat)
  | draw
deriving DecidableEq

/-- The interop event of a call, if it is one. -/
def Op.event : Op → Option Event
  | .cudaGraphicsMapResources r s => some (Event.map r s)
  | .cudaMemcpyAsync _ _ _ s => some (Event.copy s)
  | .cudaMemcpy2DFromArrayAsync _ _ _ _ _ _ _ s => some (Event.copy s)
  | .cudaGraphicsUnmapResources r s => some (Event.unmap r s)
  | .glDrawElements _ => some Event.draw
  | _ => none

/-- Checks a sequence of events from left to right. The state is the resource
currently mapped, the stream it was mapped on and the number of copies issued
since; a map is legal only when nothing is mapped, a copy only inside a
mapping and on its stream, an unmap only for the mapped resource after exactly
one copy, a draw only when nothing is mapped; at the end nothing is mapped. -/
def bracketed : Option (CudaRes × Nat × Nat) → List Event → Bool
  | st, [] => st.isNone
  | none, Event.map r s :: rest => bracketed (some (r, s, 0)) rest
  | some _, Event.map _ _ :: _ => false
  | some (r, s, n), Event.copy s1 :: rest => decide (s1 = s) && bracketed (some (r, s, n + 1)) rest
  | none, Event.copy _ :: _ => false
  | some (r, s, n), Event.unmap r1 s1 :: rest =>
      decide (r1 = r) && decide (s1 = s) && decide (n = 1) && bracketed none rest
  | none, Event.unmap _ _ :: _ => false
  | none, Event.draw :: rest => bracketed none rest
  | some _, Event.draw :: _ => false

/-- The download copies among a list of calls: destination pitch, source
offsets, row width in bytes and number of rows of each. -/
def downloadCopies (ops : List Op) : List (Nat × Nat × Nat × Nat × Nat) :=
  ops.filterMap (fun op =>
    match op with
    | .cudaMemcpy2DFromArrayAsync _ dpitch _ wOffset hOffset width height _ =>
        some (dpitch, wOffset, hOffset, width, height)
    | _ => none)

/-- The colour passed to `glClearColor`. -/
def background : Vec4 := ⟨1, 1, 0, 1⟩

/-- Flat index of element `[y][x][k]` of a contiguous tensor of sizes
`(height, width, 4)`. -/
def flatIndex (width y x k : Nat) : Nat := (y * width + x) * 4 + k

/-- Clip-space positions of the triangle with vertex indices `idx`. -/
def trianglePositions (env : Env) (vertices : List ℚ) (idx : Nat × Nat × Nat) :
    Vec4 × Vec4 × Vec4 :=
  (fetchVertex env.undefFloat vertices idx.1, fetchVertex env.undefFloat vertices idx.2.1,
   fetchVertex env.undefFloat vertices idx.2.2)

/-- Pixel `(x, y)` is covered by the triangle with vertex indices `idx`. -/
def covers (env : Env) (vertices : List ℚ) (idx : Nat × Nat × Nat) (x y : Nat) : Bool :=
  let p := trianglePositions env vertices idx
  (env.cover p.1 p.2.1 p.2.2 x y).isSome

/-! ## A reference environment -/

/-- Twice the signed area of the triangle `a b c` in the plane. -/
def edgeFn (ax ay bx b_y cx cy : ℚ) : ℚ :=
  (bx - ax) * (cy - ay) - (b_y - ay) * (cx - ax)

/-- A reference rasterizer for a `W × H` viewport: perspective divide,
viewport transform, sampling at pixel centres; a pixel is covered when its
centre has non-negative barycentric coordinates in a triangle of non-zero
area, and these coordinates are the weights. -/
def centreCover (W H : Nat) (p0 p1 p2 : Vec4) (x y : Nat) : Option Weights :=
  let sx := fun (p : Vec4) => (p.x / p.w + 1) / 2 * W
  let sy := fun (p : Vec4) => (p.y / p.w + 1) / 2 * H
  let cx : ℚ := x + 1 / 2
  let cy : ℚ := y + 1 / 2
  let area := edgeFn (sx p0) (sy p0) (sx p1) (sy p1) (sx p2) (sy p2)
  let a := edgeFn (sx p1) (sy p1) (sx p2) (sy p2) cx cy / area
  let b := edgeFn (sx p2) (sy p2) (sx p0) (sy p0) cx cy / area
  let c := edgeFn (sx p0) (sy p0) (sx p1) (sy p1) cx cy / area
  if area ≠ 0 ∧ x < W ∧ y < H ∧ 0 ≤ a ∧ 0 ≤ b ∧ 0 ≤ c then some ⟨a, b, c⟩ else none

/-- An environment in which no call fails, for a `4 × 4` target. -/
def sampleEnv : Env :=
  { fails := fun _ => false, framebufferComplete := true, stream := 7,
    cover := centreCover 4 4, undefFloat := fun _ => 0, undefIndex := fun _ => 0,
    undefTexel := fun _ _ => ⟨0, 0, 0, 0⟩, undefVarying := ⟨⟨0, 0, 0, 0⟩, ⟨0, 0, 0⟩⟩ }

/-- One triangle with corners `(-1,-1)`, `(1,-1)`, `(0,1)` on a `4 × 4` target. -/
def sampleInputs : Inputs :=
  { vertices := [-1, -1, 0, 1, 1, -1, 0, 1, 0, 1, 0, 1], indices := [0, 1, 2],
    width := 4, height := 4, cudaDeviceIdx := 0 }

/-- The sample environment with the framebuffer reported incomplete. -/
def incompleteEnv : Env :=
  { sampleEnv with framebufferComplete := false }

/-- One vertex and an index buffer that names vertices 5 and 7. -/
def outOfRangeInputs : Inputs :=
  { vertices := [0, 0, 0, 1], indices := [0, 5, 7], width := 2, height := 2, cudaDeviceIdx := 0 }

/-! # Theorems -/

/-! ## Shader stages -/

/-- The geometry stage emits one strip of three vertices: corner `i` with tag `e_i`. -/
theorem geometryShader_eq (undef g0 g1 g2 : VSOut) :
    geometryShader undef g0 g1 g2 =
      [[⟨g0.gl_Position, ⟨1, 0, 0⟩⟩, ⟨g1.gl_Position, ⟨0, 1, 0⟩⟩, ⟨g2.gl_Position, ⟨0, 0, 1⟩⟩]] := by
  simp [geometryShader, geometryMain, EmitVertex, EndPrimitive]

/-- One input triangle is one rasterized triangle with the three unit tags. -/
theorem drawTriangle_eq (env : Env) (vbo : List ℚ) (img : Image) (idx : Nat × Nat × Nat) :
    drawTriangle env vbo img idx =
      shadeTriangle env img
        (⟨fetchVertex env.undefFloat vbo idx.1, ⟨1, 0, 0⟩⟩,
         ⟨fetchVertex env.undefFloat vbo idx.2.1, ⟨0, 1, 0⟩⟩,
         ⟨fetchVertex env.undefFloat vbo idx.2.2, ⟨0, 0, 1⟩⟩) := by
  simp [drawTriangle, geometryShader_eq, stripTriangles, vertexShader]

/-- Interpolating the three unit tags gives back the weights. -/
theorem interpolate_unit_tags (wt : Weights) :
    interpolate wt ⟨1, 0, 0⟩ ⟨0, 1, 0⟩ ⟨0, 0, 1⟩ = ⟨wt.a, wt.b, wt.c⟩ := by
  simp [interpolate]

/-- Value of a pixel after one triangle, by coverage. -/
theorem drawTriangle_pixel (env : Env) (vbo : List ℚ) (img : Image) (idx : Nat × Nat × Nat)
    (x y : Nat) :
    drawTriangle env vbo img idx x y =
      match env.cover (trianglePositions env vbo idx).1 (trianglePositions env vbo idx).2.1
          (trianglePositions env vbo idx).2.2 x y with
      | some wt => ⟨wt.a, wt.b, wt.c, 1⟩
      | none => img x y := by
  rw [drawTriangle_eq]
  simp only [shadeTriangle, trianglePositions]
  split <;> simp_all [fragmentShader, interpolate_unit_tags, Vec4.ofVec3]

/-- C6: for every input triangle with corner positions p0, p1, p2, whatever tags
t0, t1, t2 arrive from the vertex stage, the geometry stage emits exactly one
strip of exactly three vertices, the i-th with position p_i unchanged and tag
e_i (e_0 = (1,0,0), e_1 = (0,1,0), e_2 = (0,0,1)); the vertex stage passes the
position through and emits the zero tag, which therefore never reaches the output. -/
theorem C6_geometry_stage_emits_unit_tags (undef : VSOut) (p0 p1 p2 : Vec4) (t0 t1 t2 : Vec3) :
    geometryShader undef ⟨p0, t0⟩ ⟨p1, t1⟩ ⟨p2, t2⟩ =
        [[⟨p0, ⟨1, 0, 0⟩⟩, ⟨p1, ⟨0, 1, 0⟩⟩, ⟨p2, ⟨0, 0, 1⟩⟩]]
      ∧ vertexShader p0 = ⟨p0, ⟨0, 0, 0⟩⟩
      ∧ geometryShader undef (vertexShader p0) (vertexShader p1) (vertexShader p2) =
        [[⟨p0, ⟨1, 0, 0⟩⟩, ⟨p1, ⟨0, 1, 0⟩⟩, ⟨p2, ⟨0, 0, 1⟩⟩]] := by
  refine ⟨?_, rfl, ?_⟩
  · rw [geometryShader_eq]
  · rw [geometryShader_eq]; rfl

/-- C3: for every input triangle and every pixel the rasterizer covers with
weights (a, b, c) summing to 1, the pipeline writes vec4(interpolation of the
three emitted tags, 1.0) = (a, b, c, 1): the first three channels sum to 1
(hence lie within 1e-3 of 1) and the fourth is the constant 1. -/
theorem C3_covered_pixel_is_barycentric (env : Env) (vbo : List ℚ) (img : Image)
    (idx : Nat × Nat × Nat) (x y : Nat) (wt : Weights)
    (hcov : env.cover (trianglePositions env vbo idx).1 (trianglePositions env vbo idx).2.1
      (trianglePositions env vbo idx).2.2 x y = some wt)
    (hsum : wt.a + wt.b + wt.c = 1) :
    drawTriangle env vbo img idx x y
        = Vec4.ofVec3 (interpolate wt ⟨1, 0, 0⟩ ⟨0, 1, 0⟩ ⟨0, 0, 1⟩) 1
      ∧ drawTriangle env vbo img idx x y = ⟨wt.a, wt.b, wt.c, 1⟩
      ∧ (drawTriangle env vbo img idx x y).x + (drawTriangle env vbo img idx x y).y
          + (drawTriangle env vbo img idx x y).z = 1
      ∧ |(drawTriangle env vbo img idx x y).x + (drawTriangle env vbo img idx x y).y
          + (drawTriangle env vbo img idx x y).z - 1| ≤ 1 / 1000
      ∧ (drawTriangle env vbo img idx x y).w = 1 := by
  have h : drawTriangle env vbo img idx x y = ⟨wt.a, wt.b, wt.c, 1⟩ := by
    rw [drawTriangle_pixel, hcov]
  refine ⟨?_, h, ?_, ?_, ?_⟩
  · rw [h, interpolate_unit_tags]; rfl
  · rw [h]; exact hsum
  · rw [h]; simp only [hsum]; norm_num
  · rw [h]

/-- The reference rasterizer covers pixel (2, 0) of the sample triangle. -/
theorem sample_cover_2_0 :
    sampleEnv.cover (trianglePositions sampleEnv sampleInputs.vertices (0, 1, 2)).1
      (trianglePositions sampleEnv sampleInputs.vertices (0, 1, 2)).2.1
      (trianglePositions sampleEnv sampleInputs.vertices (0, 1, 2)).2.2 2 0
      = some ⟨5 / 16, 9 / 16, 1 / 8⟩ := by
  norm_num [sampleEnv, sampleInputs, trianglePositions, fetchVertex, centreCover, edgeFn]

/-- Witness for C3 at pixel (2, 0) of the sample triangle. -/
theorem C3_covered_pixel_is_barycentric_witness :
    drawTriangle sampleEnv sampleInputs.vertices (fun _ _ => background) (0, 1, 2) 2 0
      = ⟨5 / 16, 9 / 16, 1 / 8, 1⟩ :=
  (C3_covered_pixel_is_barycentric sampleEnv sampleInputs.vertices (fun _ _ => background)
    (0, 1, 2) 2 0 ⟨5 / 16, 9 / 16, 1 / 8⟩ sample_cover_2_0 (by norm_num)).2.1

/-! ## Running a list of calls -/

/-- An invocation that returns has issued every call. -/
theorem exec_of_isReturned (env : Env) (inp : Inputs) :
    ∀ (ops : List Op) (k : Nat) (w : World),
      (exec env inp ops k w).isReturned = true →
      exec env inp ops k w = Outcome.returned (ops.foldl (issue env inp) w) := by
  intro ops
  induction ops with
  | nil => intro k w _; rfl
  | cons op rest ih =>
    intro k w h
    simp only [exec] at h ⊢
    split_ifs at h ⊢ with h1 h2
    · simp [Outcome.isReturned] at h
    · simpa using ih _ _ h
    · simpa using ih _ _ h

/-- A complete framebuffer makes no call raise an error by itself. -/
theorem raisesError_of_complete (env : Env) (op : Op) (w : World)
    (hfb : env.framebufferComplete = true) : raisesError env op w = false := by
  cases op <;> simp [raisesError, hfb]

/-- Whether a call raises an error depends on the state only through the
framebuffer binding. -/
theorem raisesError_congr (env : Env) (op : Op) (w w1 : World)
    (h : w.framebuffer = w1.framebuffer) : raisesError env op w = raisesError env op w1 := by
  cases op <;> simp [raisesError, h]

/-- When the framebuffer is complete and no call fails, every call is issued
and the invocation returns. -/
theorem exec_of_no_failure (env : Env) (inp : Inputs) (hf : ∀ k, env.fails k = false)
    (hfb : env.framebufferComplete = true) :
    ∀ (ops : List Op) (k : Nat) (w : World),
      exec env inp ops k w = Outcome.returned (ops.foldl (issue env inp) w) := by
  intro ops
  induction ops with
  | nil => intro k w; rfl
  | cons op rest ih =>
    intro k w
    simp only [exec, hf, raisesError_of_complete env _ _ hfb, Bool.or_false,
      Bool.false_eq_true, if_false, ite_self, List.foldl_cons, ih]

/-- No effect touches the trace. -/
theorem step_trace (env : Env) (inp : Inputs) (op : Op) (w : World) :
    (step env inp op w).trace = w.trace := by
  cases op <;> simp only [step, initContext, destroyContext] <;> (try split) <;> (try split) <;> rfl

/-- Issuing a call appends it to the trace. -/
theorem issue_trace (env : Env) (inp : Inputs) (op : Op) (w : World) :
    (issue env inp w op).trace = w.trace ++ [op] := by
  simp [issue, step_trace]

/-- The framebuffer binding after a call is determined by the call and the
binding before it. -/
theorem step_framebuffer (env : Env) (inp : Inputs) (op : Op) (w : World) :
    (step env inp op w).framebuffer = framebufferAfter op w.framebuffer := by
  cases op <;> (try (rename BufferTarget => t; cases t)) <;>
    simp only [step, initContext, destroyContext, framebufferAfter] <;>
    (try split) <;> rfl

/-- The framebuffer binding after issuing a call. -/
theorem issue_framebuffer (env : Env) (inp : Inputs) (op : Op) (w : World) :
    (issue env inp w op).framebuffer = framebufferAfter op w.framebuffer := by
  simp [issue, step_framebuffer]

/-- The calls issued, and whether the invocation returns, are determined by
the list of calls, the environment and the framebuffer binding at the start. -/
theorem exec_trace_congr (env : Env) (inp inp1 : Inputs) :
    ∀ (ops : List Op) (k : Nat) (w w1 : World), w.trace = w1.trace →
      w.framebuffer = w1.framebuffer →
      (exec env inp ops k w).isReturned = (exec env inp1 ops k w1).isReturned
      ∧ (exec env inp ops k w).world.trace = (exec env inp1 ops k w1).world.trace := by
  intro ops
  induction ops with
  | nil => intro k w w1 h _; exact ⟨rfl, h⟩
  | cons op rest ih =>
    intro k w w1 h hfb
    have h1 : (issue env inp w op).trace = (issue env inp1 w1 op).trace := by
      rw [issue_trace, issue_trace, h]
    have h2 : (issue env inp w op).framebuffer = (issue env inp1 w1 op).framebuffer := by
      rw [issue_framebuffer, issue_framebuffer, hfb]
    simp only [exec, raisesError_congr env op w w1 hfb]
    split_ifs
    · exact ⟨rfl, by simp [Outcome.world, h]⟩
    · exact ih _ _ _ h1 h2
    · exact ih _ _ _ h1 h2

/-- The trace of an outcome extends the trace of the starting state by an
initial segment of the calls, all of them if the invocation returns. -/
theorem exec_trace_extends (env : Env) (inp : Inputs) :
    ∀ (ops : List Op) (k : Nat) (w : World),
      ∃ issued, (exec env inp ops k w).world.trace = w.trace ++ issued
        ∧ (∃ rest, issued ++ rest = ops)
        ∧ ((exec env inp ops k w).isReturned = true → issued = ops) := by
  intro ops
  induction ops with
  | nil => intro k w; exact ⟨[], by simp [exec, Outcome.world], ⟨[], rfl⟩, fun _ => rfl⟩
  | cons op rest ih =>
    intro k w
    simp only [exec]
    split_ifs
    · exact ⟨[op], by simp [Outcome.world], ⟨rest, rfl⟩, by simp [Outcome.isReturned]⟩
    · obtain ⟨l, hl, ⟨r, hr1⟩, hr⟩ := ih (k + 1) (issue env inp w op)
      exact ⟨op :: l, by simp [hl, issue_trace], ⟨r, by simp [hr1]⟩, fun h => by rw [hr h]⟩
    · obtain ⟨l, hl, ⟨r, hr1⟩, hr⟩ := ih k (issue env inp w op)
      exact ⟨op :: l, by simp [hl, issue_trace], ⟨r, by simp [hr1]⟩, fun h => by rw [hr h]⟩

/-- A checked call that raises an error in the state reached by the calls
before it ends the invocation there at the latest: the calls issued are an
initial segment of those before it and itself, and all of them when nothing
fails earlier. -/
theorem exec_aborts_at (env : Env) (inp : Inputs) (op : Op) (post : List Op)
    (hop : op.mayAbort = true) :
    ∀ (pre : List Op) (k : Nat) (w : World),
      raisesError env op (pre.foldl (issue env inp) w) = true →
      (exec env inp (pre ++ op :: post) k w).isReturned = false
      ∧ ∃ issued, (exec env inp (pre ++ op :: post) k w).world.trace = w.trace ++ issued
          ∧ (∃ rest, issued ++ rest = pre ++ [op])
          ∧ ((∀ j, env.fails j = false) → (∀ o ∈ pre, ∀ w1, raisesError env o w1 = false) →
              issued = pre ++ [op]) := by
  intro pre
  induction pre with
  | nil =>
    intro k w hraise
    simp only [List.foldl_nil] at hraise
    simp only [List.nil_append, exec, hop, hraise, Bool.or_true, if_true]
    exact ⟨rfl, [op], by simp [Outcome.world], ⟨[], rfl⟩, fun _ _ => rfl⟩
  | cons a pre ih =>
    intro k w hraise
    simp only [List.foldl_cons] at hraise
    simp only [List.cons_append, exec]
    split_ifs with h1 h2
    · refine ⟨rfl, [a], by simp [Outcome.world], ⟨pre ++ [op], rfl⟩, ?_⟩
      intro hf hnr
      rw [hf k, hnr a (List.mem_cons_self _ _) w] at h2
      simp at h2
    · obtain ⟨hret, l, hl, ⟨r, hr⟩, hall⟩ := ih (k + 1) (issue env inp w a) hraise
      refine ⟨hret, a :: l, by simp [hl, issue_trace], ⟨r, by simp [hr]⟩, ?_⟩
      intro hf hnr
      rw [hall hf (fun o ho => hnr o (List.mem_cons_of_mem _ ho))]
    · obtain ⟨hret, l, hl, ⟨r, hr⟩, hall⟩ := ih k (issue env inp w a) hraise
      refine ⟨hret, a :: l, by simp [hl, issue_trace], ⟨r, by simp [hr]⟩, ?_⟩
      intro hf hnr
      rw [hall hf (fun o ho => hnr o (List.mem_cons_of_mem _ ho))]

/-- The calls of an invocation that returns are those of the source, in order. -/
theorem callTrace_of_isReturned (env : Env) (inp : Inputs) (w : World)
    (h : (rasterize env inp w).isReturned = true) :
    callTrace w (rasterize env inp w) = rasterizeOps env inp := by
  obtain ⟨l, hl, _, hr⟩ := exec_trace_extends env inp (rasterizeOps env inp) 0 w
  unfold callTrace rasterize
  rw [hl, List.drop_left, hr h]

/-- With a complete framebuffer and no failing call, `rasterize` returns. -/
theorem rasterize_returns_of_no_failure (env : Env) (inp : Inputs) (w : World)
    (hf : ∀ k, env.fails k = false) (hfb : env.framebufferComplete = true) :
    (rasterize env inp w).isReturned = true := by
  unfold rasterize
  rw [exec_of_no_failure env inp hf hfb]
  rfl

/-- A copy of the whole source over a freshly allocated buffer of the same
size leaves exactly the source. -/
theorem overwrite_fresh {α : Type} (f : Nat → α) (src : List α) :
    overwrite ((List.range src.length).map f) src src.length = src := by
  simp [overwrite]

/-- A call that returns ends in the state reached by issuing every call. -/
theorem rasterize_of_isReturned (env : Env) (inp : Inputs) (w : World)
    (h : (rasterize env inp w).isReturned = true) :
    rasterize env inp w = Outcome.returned (finalWorld env inp w) :=
  exec_of_isReturned env inp _ _ _ h

/-- The tensor returned: allocated with sizes `(height, width, 4)` and element
type float32, then filled by the download copy from the image left by the
clear and the draw. -/
theorem finalWorld_out (env : Env) (inp : Inputs) (w : World) :
    (finalWorld env inp w).out = some
      { sizes := [inp.height, inp.width, 4], dtype := ScalarType.kFloat32,
        data := memcpy2DFromArray env.undefFloat (rowBytes inp.width)
          (drawElements env inp.vertices inp.indices inp.indices.length (fun _ _ => background))
          0 0 (rowBytes inp.width) (toSizeT inp.height) } := by
  cases hc : env.framebufferComplete <;>
  simp [finalWorld, rasterizeOps, hc, issue, step, initContext, destroyContext, drawReady, List.lookup, sizeofFloat,
    sizeofUInt32, overwrite_fresh, background]

/-- Resources left behind by a call that returns. -/
theorem finalWorld_resources (env : Env) (inp : Inputs) (w : World) :
    (finalWorld env inp w).registrations =
        (CudaRes.cudaEBO, GLObj.glEBO) :: (CudaRes.cudaVBO, GLObj.glVBO) :: w.registrations
      ∧ (finalWorld env inp w).mapped = w.mapped
      ∧ (finalWorld env inp w).glObjects = []
      ∧ (finalWorld env inp w).contexts = w.contexts := by
  cases hc : env.framebufferComplete <;>
  simp [finalWorld, rasterizeOps, hc, issue, step, initContext, destroyContext, drawReady, List.lookup, sizeofFloat,
    sizeofUInt32]

/-! ## The claims about `rasterize` -/

/-- C1: every call of rasterize with width > 0 and height > 0 that returns,
returns a tensor of sizes exactly (height, width, 4), in that order, with
element type float32, whatever the vertex and index buffers hold and however
long they are. -/
theorem C1_output_shape_and_dtype (env : Env) (inp : Inputs) (w : World)
    (hw : 0 < inp.width) (hh : 0 < inp.height)
    (hret : (rasterize env inp w).isReturned = true) :
    ∃ t, (rasterize env inp w).result = some t
      ∧ t.sizes = [inp.height, inp.width, 4] ∧ t.dtype = ScalarType.kFloat32 := by
  have _ := hw
  have _ := hh
  have h := finalWorld_out env inp w
  rw [rasterize_of_isReturned env inp w hret]
  simp only [Outcome.result]
  exact ⟨_, h, rfl, rfl⟩

/-- Witness for C1: the sample call returns a (4, 4, 4) float32 tensor. -/
theorem C1_output_shape_and_dtype_witness :
    ∃ t, (rasterize sampleEnv sampleInputs (World.init sampleEnv)).result = some t
      ∧ t.sizes = [4, 4, 4] ∧ t.dtype = ScalarType.kFloat32 :=
  C1_output_shape_and_dtype sampleEnv sampleInputs (World.init sampleEnv)
    (by decide) (by decide) (by rfl)

/-- C5 (what the code does): a call of rasterize that returns leaves the
registrations of the vertex buffer and of the index buffer outstanding, two
more than before the call; only the output-image registration is released,
while the OpenGL objects go with the context and nothing stays mapped. -/
theorem C5_buffer_registrations_outlive_call (env : Env) (inp : Inputs) (w : World)
    (hret : (rasterize env inp w).isReturned = true) :
    (rasterize env inp w).world.registrations =
        (CudaRes.cudaEBO, GLObj.glEBO) :: (CudaRes.cudaVBO, GLObj.glVBO) :: w.registrations
      ∧ (rasterize env inp w).world.registrations.length = w.registrations.length + 2
      ∧ (rasterize env inp w).world.glObjects = []
      ∧ (rasterize env inp w).world.contexts = w.contexts := by
  rw [rasterize_of_isReturned env inp w hret]
  obtain ⟨h1, _, h3, h4⟩ := finalWorld_resources env inp w
  simp [Outcome.world, h1, h3, h4]

/-- Witness for C5: after the sample call from the empty state two
registrations are outstanding. -/
theorem C5_buffer_registrations_outlive_call_witness :
    (rasterize sampleEnv sampleInputs (World.init sampleEnv)).world.registrations.length = 2 :=
  (C5_buffer_registrations_outlive_call sampleEnv sampleInputs (World.init sampleEnv)
    (by rfl)).2.1

/-- Two successive sample calls leave four registrations outstanding. -/
theorem registrations_grow_over_repeated_calls :
    (rasterize sampleEnv sampleInputs
      (rasterize sampleEnv sampleInputs (World.init sampleEnv)).world).world.registrations.length
      = 4 := by
  rfl

/-- The interop events of the calls of `rasterize`. -/
theorem rasterizeOps_events (env : Env) (inp : Inputs) :
    (rasterizeOps env inp).filterMap Op.event =
      [ Event.map CudaRes.cudaVBO env.stream, Event.copy env.stream,
        Event.unmap CudaRes.cudaVBO env.stream,
        Event.map CudaRes.cudaEBO env.stream, Event.copy env.stream,
        Event.unmap CudaRes.cudaEBO env.stream,
        Event.draw,
        Event.map CudaRes.cudaOutBary env.stream, Event.copy env.stream,
        Event.unmap CudaRes.cudaOutBary env.stream ] := by
  cases hc : env.framebufferComplete <;> simp [rasterizeOps, hc, Op.event]

/-- C7: in the calls of every successful rasterize, each interop map is
followed by exactly one asynchronous copy on the same stream and then by the
matching unmap, with no other map in between; the one indexed draw comes after
the unmaps of the vertex and index uploads and before the map of the output
image; and nothing the call mapped is still mapped when it returns. -/
theorem C7_map_copy_unmap_bracketing (env : Env) (inp : Inputs) (w : World)
    (hret : (rasterize env inp w).isReturned = true) :
    (callTrace w (rasterize env inp w)).filterMap Op.event =
        [ Event.map CudaRes.cudaVBO env.stream, Event.copy env.stream,
          Event.unmap CudaRes.cudaVBO env.stream,
          Event.map CudaRes.cudaEBO env.stream, Event.copy env.stream,
          Event.unmap CudaRes.cudaEBO env.stream,
          Event.draw,
          Event.map CudaRes.cudaOutBary env.stream, Event.copy env.stream,
          Event.unmap CudaRes.cudaOutBary env.stream ]
      ∧ bracketed none ((callTrace w (rasterize env inp w)).filterMap Op.event) = true
      ∧ (rasterize env inp w).world.mapped = w.mapped := by
  rw [callTrace_of_isReturned env inp w hret, rasterizeOps_events]
  refine ⟨rfl, by simp [bracketed], ?_⟩
  have h := (finalWorld_resources env inp w).2.1
  rw [rasterize_of_isReturned env inp w hret]
  simp only [Outcome.world]
  exact h

/-- Witness for C7: the sample call passes the bracketing check and leaves
nothing mapped. -/
theorem C7_map_copy_unmap_bracketing_witness :
    bracketed none ((callTrace (World.init sampleEnv)
        (rasterize sampleEnv sampleInputs (World.init sampleEnv))).filterMap Op.event) = true
      ∧ (rasterize sampleEnv sampleInputs (World.init sampleEnv)).world.mapped = [] :=
  (C7_map_copy_unmap_bracketing sampleEnv sampleInputs (World.init sampleEnv) (by rfl)).2

/-- With an incomplete framebuffer the calls of `rasterize` are those listed
up to the clear, the clear, and the rest of the complete case. -/
theorem rasterizeOps_incomplete (env : Env) (inp : Inputs)
    (hfb : env.framebufferComplete = false) :
    rasterizeOps env inp =
      (callsUntilClear env inp).take 41 ++ Op.glClear
        :: (rasterizeOps { env with framebufferComplete := true } inp).drop 41
      ∧ callsUntilClear env inp = (callsUntilClear env inp).take 41 ++ [Op.glClear] := by
  constructor <;> simp [rasterizeOps, callsUntilClear, hfb]

/-- The framebuffer object is bound when the clear is issued. -/
theorem framebuffer_bound_at_clear (env : Env) (inp : Inputs) (w : World) :
    (((callsUntilClear env inp).take 41).foldl (issue env inp) w).framebuffer
      = some GLObj.glFBO := by
  simp [callsUntilClear, rasterizeOps, issue, step, initContext]

/-- No call before the clear raises an error by itself. -/
theorem no_error_before_clear (env : Env) (inp : Inputs) :
    ∀ o ∈ (callsUntilClear env inp).take 41, ∀ w1, raisesError env o w1 = false := by
  simp [callsUntilClear, rasterizeOps, raisesError]

/-- An invocation that did not return has no result. -/
theorem result_of_not_returned (o : Outcome) (h : o.isReturned = false) : o.result = none := by
  cases o with
  | aborted w => rfl
  | returned w => simp [Outcome.isReturned] at h

/-- C9 (as stated, refuted): with the framebuffer reported incomplete and no
other call failing, the sample call prints the diagnostic, goes on to the
clear, and is aborted there by the error the clear reports: it does not return,
there is no tensor, and the draw is never issued. -/
theorem C9_incomplete_framebuffer_run_aborts :
    incompleteEnv.framebufferComplete = false
      ∧ (∀ k, incompleteEnv.fails k = false)
      ∧ (rasterize incompleteEnv sampleInputs (World.init incompleteEnv)).isReturned = false
      ∧ (rasterize incompleteEnv sampleInputs (World.init incompleteEnv)).result.isNone = true
      ∧ Op.coutFramebufferNotComplete ∈
          callTrace (World.init incompleteEnv)
            (rasterize incompleteEnv sampleInputs (World.init incompleteEnv))
      ∧ (callTrace (World.init incompleteEnv)
            (rasterize incompleteEnv sampleInputs (World.init incompleteEnv))).getLast?
          = some Op.glClear
      ∧ Op.glDrawElements 3 ∉
          callTrace (World.init incompleteEnv)
            (rasterize incompleteEnv sampleInputs (World.init incompleteEnv)) := by
  refine ⟨rfl, fun _ => rfl, by rfl, by rfl, by decide, by decide, by decide⟩

/-- C9 (amended): when the completeness check reports an incomplete
framebuffer, the branch only prints the diagnostic and does not itself abort:
the calls issued are an initial segment of the calls of the complete case up to
and including the clear, in the same order, with the print inserted after the
status query, and all of them when no other call fails. The clear then reports
the error of an incomplete framebuffer and the invocation is aborted: the draw,
the download and the teardown are not issued and no tensor is returned. -/
theorem C9_incomplete_framebuffer_prints_then_aborts_at_clear (env : Env) (inp : Inputs)
    (w : World) (hfb : env.framebufferComplete = false) :
    (rasterize env inp w).isReturned = false
      ∧ (rasterize env inp w).result = none
      ∧ (∃ rest, callTrace w (rasterize env inp w) ++ rest = callsUntilClear env inp)
      ∧ ((∀ k, env.fails k = false) →
          callTrace w (rasterize env inp w) = callsUntilClear env inp)
      ∧ (callsUntilClear env inp).drop 34 =
          [ Op.glCheckFramebufferStatus, Op.coutFramebufferNotComplete,
            Op.glBindTexture none, Op.glBindFramebuffer none, Op.shaderUse,
            Op.glBindFramebuffer (some GLObj.glFBO), Op.glClearColor 1 1 0 1, Op.glClear ]
      ∧ (∀ c, Op.glDrawElements c ∉ callTrace w (rasterize env inp w))
      ∧ Op.destroyContext ∉ callTrace w (rasterize env inp w) := by
  obtain ⟨hsplit, hcalls⟩ := rasterizeOps_incomplete env inp hfb
  have hraise : raisesError env Op.glClear
      (((callsUntilClear env inp).take 41).foldl (issue env inp) w) = true := by
    simp [raisesError, framebuffer_bound_at_clear, hfb]
  obtain ⟨hret, issued, htrace, ⟨rest, hrest⟩, hall⟩ :=
    exec_aborts_at env inp Op.glClear
      ((rasterizeOps { env with framebufferComplete := true } inp).drop 41) rfl
      ((callsUntilClear env inp).take 41) 0 w hraise
  rw [← hsplit] at hret htrace
  rw [← hcalls] at hrest hall
  have hct : callTrace w (rasterize env inp w) = issued := by
    unfold callTrace rasterize
    rw [htrace, List.drop_left]
  have hnot : ∀ o, o ∉ callsUntilClear env inp → o ∉ issued := by
    intro o ho hmem
    apply ho
    rw [← hrest]
    exact List.mem_append_left _ hmem
  refine ⟨hret, result_of_not_returned _ hret, ⟨rest, by rw [hct, hrest]⟩, ?_, ?_, ?_, ?_⟩
  · intro hf
    rw [hct]
    exact hall hf (no_error_before_clear env inp)
  · simp [callsUntilClear, rasterizeOps]
  · intro c
    rw [hct]
    exact hnot _ (by simp [callsUntilClear, rasterizeOps])
  · rw [hct]
    exact hnot _ (by simp [callsUntilClear, rasterizeOps])

/-- Witness for C9 (amended): the sample call with the framebuffer reported
incomplete issues exactly the calls up to the clear and returns nothing. -/
theorem C9_incomplete_framebuffer_prints_then_aborts_at_clear_witness :
    (rasterize incompleteEnv sampleInputs (World.init incompleteEnv)).isReturned = false
      ∧ callTrace (World.init incompleteEnv)
          (rasterize incompleteEnv sampleInputs (World.init incompleteEnv))
        = callsUntilClear incompleteEnv sampleInputs :=
  ⟨(C9_incomplete_framebuffer_prints_then_aborts_at_clear incompleteEnv sampleInputs
      (World.init incompleteEnv) rfl).1,
   (C9_incomplete_framebuffer_prints_then_aborts_at_clear incompleteEnv sampleInputs
      (World.init incompleteEnv) rfl).2.2.2.1 (fun _ => rfl)⟩

/-- C4 (as stated, refuted): the index buffer [0, 5, 7] names vertices 5 and 7
of a one-vertex buffer, yet with no failing call rasterize issues the draw with
all three indices and returns. -/
theorem C4_out_of_range_index_is_drawn :
    (∃ i ∈ outOfRangeInputs.indices, outOfRangeInputs.vertices.length / 4 ≤ i)
      ∧ (rasterize sampleEnv outOfRangeInputs (World.init sampleEnv)).isReturned = true
      ∧ Op.glDrawElements 3 ∈
          callTrace (World.init sampleEnv)
            (rasterize sampleEnv outOfRangeInputs (World.init sampleEnv)) := by
  refine ⟨⟨5, by simp [outOfRangeInputs]⟩, by rfl, ?_⟩
  rw [callTrace_of_isReturned _ _ _ (by rfl)]
  simp [rasterizeOps, sampleEnv, outOfRangeInputs]

/-- When the draw is issued the vertex buffer holds the input vertices, the
element buffer holds the input indices unchanged, the target holds the clear
colour, and everything the draw needs is bound. -/
theorem worldAtDraw_buffers (env : Env) (inp : Inputs) (w : World) :
    (worldAtDraw env inp w).vbo = inp.vertices
      ∧ (worldAtDraw env inp w).ebo = inp.indices
      ∧ (worldAtDraw env inp w).image = (fun _ _ => background)
      ∧ drawReady (worldAtDraw env inp w) = true := by
  cases hc : env.framebufferComplete <;>
  simp [worldAtDraw, rasterizeOps, hc, Op.isDraw, List.takeWhile, issue, step, initContext,
    drawReady, List.lookup, sizeofFloat, sizeofUInt32, overwrite_fresh, background]

/-- The first call not before the draw is the draw, over all the indices. -/
theorem dropWhile_isDraw (env : Env) (inp : Inputs) :
    ((rasterizeOps env inp).dropWhile (fun op => !op.isDraw)).head?
      = some (Op.glDrawElements inp.indices.length) := by
  cases hc : env.framebufferComplete <;>
  simp [rasterizeOps, hc, Op.isDraw, List.dropWhile]

/-- A call that returns passes through the state in which the draw is issued. -/
theorem finalWorld_through_draw (env : Env) (inp : Inputs) (w : World) :
    finalWorld env inp w =
      ((rasterizeOps env inp).dropWhile (fun op => !op.isDraw)).foldl (issue env inp)
        (worldAtDraw env inp w) := by
  unfold finalWorld worldAtDraw
  rw [← List.foldl_append, List.takeWhile_append_dropWhile]

/-- The draw rasterizes over the buffers as they are at that point. -/
theorem issue_draw_image (env : Env) (inp : Inputs) (w : World) :
    (issue env inp (worldAtDraw env inp w) (Op.glDrawElements inp.indices.length)).image
      = drawElements env inp.vertices inp.indices inp.indices.length (fun _ _ => background) := by
  cases hc : env.framebufferComplete <;>
  simp [worldAtDraw, rasterizeOps, hc, Op.isDraw, List.takeWhile, issue, step, initContext,
    drawReady, List.lookup, sizeofFloat, sizeofUInt32, overwrite_fresh, background]

/-- C4 (amended): rasterize never inspects index values. Replacing the index
buffer by any other of the same length changes neither whether the call is
aborted nor the calls it issues; a call that returns has issued the draw over
all its indices, and when the draw is issued the element buffer holds exactly
the input indices, in range or not, neither rejected nor clamped: the draw
rasterizes over them and the returned tensor is the copy of that image. -/
theorem C4_index_values_are_not_checked (env : Env) (vertices : List ℚ)
    (indices indices1 : List Nat) (width height cudaDeviceIdx : Int) (w : World)
    (hlen : indices.length = indices1.length) :
    (rasterize env ⟨vertices, indices, width, height, cudaDeviceIdx⟩ w).isReturned
        = (rasterize env ⟨vertices, indices1, width, height, cudaDeviceIdx⟩ w).isReturned
      ∧ callTrace w (rasterize env ⟨vertices, indices, width, height, cudaDeviceIdx⟩ w)
        = callTrace w (rasterize env ⟨vertices, indices1, width, height, cudaDeviceIdx⟩ w)
      ∧ ((rasterize env ⟨vertices, indices, width, height, cudaDeviceIdx⟩ w).isReturned = true →
          Op.glDrawElements indices.length ∈
            callTrace w (rasterize env ⟨vertices, indices, width, height, cudaDeviceIdx⟩ w))
      ∧ ((rasterize env ⟨vertices, indices, width, height, cudaDeviceIdx⟩ w).isReturned = true →
          (rasterize env ⟨vertices, indices, width, height, cudaDeviceIdx⟩ w).world =
              ((rasterizeOps env ⟨vertices, indices, width, height, cudaDeviceIdx⟩).dropWhile
                (fun op => !op.isDraw)).foldl
                (issue env ⟨vertices, indices, width, height, cudaDeviceIdx⟩)
                (worldAtDraw env ⟨vertices, indices, width, height, cudaDeviceIdx⟩ w)
          ∧ ((rasterizeOps env ⟨vertices, indices, width, height, cudaDeviceIdx⟩).dropWhile
                (fun op => !op.isDraw)).head? = some (Op.glDrawElements indices.length)
          ∧ (worldAtDraw env ⟨vertices, indices, width, height, cudaDeviceIdx⟩ w).ebo = indices
          ∧ (worldAtDraw env ⟨vertices, indices, width, height, cudaDeviceIdx⟩ w).vbo = vertices
          ∧ (issue env ⟨vertices, indices, width, height, cudaDeviceIdx⟩
                (worldAtDraw env ⟨vertices, indices, width, height, cudaDeviceIdx⟩ w)
                (Op.glDrawElements indices.length)).image
              = drawElements env vertices indices indices.length (fun _ _ => background)
          ∧ ∃ t, (rasterize env ⟨vertices, indices, width, height, cudaDeviceIdx⟩ w).result
                = some t
              ∧ t.data = memcpy2DFromArray env.undefFloat (rowBytes width)
                  (drawElements env vertices indices indices.length (fun _ _ => background))
                  0 0 (rowBytes width) (toSizeT height)) := by
  have hops : rasterizeOps env ⟨vertices, indices, width, height, cudaDeviceIdx⟩
      = rasterizeOps env ⟨vertices, indices1, width, height, cudaDeviceIdx⟩ := by
    simp [rasterizeOps, hlen]
  have h := exec_trace_congr env ⟨vertices, indices, width, height, cudaDeviceIdx⟩
    ⟨vertices, indices1, width, height, cudaDeviceIdx⟩
    (rasterizeOps env ⟨vertices, indices, width, height, cudaDeviceIdx⟩) 0 w w rfl rfl
  refine ⟨?_, ?_, ?_, ?_⟩
  · unfold rasterize; rw [← hops]; exact h.1
  · unfold callTrace rasterize; rw [← hops, h.2]
  · intro hret
    rw [callTrace_of_isReturned _ _ _ hret]
    cases hc : env.framebufferComplete <;> simp [rasterizeOps, hc]
  · intro hret
    obtain ⟨hv, he, _, _⟩ :=
      worldAtDraw_buffers env ⟨vertices, indices, width, height, cudaDeviceIdx⟩ w
    have hthrough :=
      finalWorld_through_draw env ⟨vertices, indices, width, height, cudaDeviceIdx⟩ w
    have hdraw := issue_draw_image env ⟨vertices, indices, width, height, cudaDeviceIdx⟩ w
    have hhead := dropWhile_isDraw env ⟨vertices, indices, width, height, cudaDeviceIdx⟩
    have hout := finalWorld_out env ⟨vertices, indices, width, height, cudaDeviceIdx⟩ w
    rw [rasterize_of_isReturned _ _ _ hret]
    simp only [Outcome.world, Outcome.result]
    exact ⟨hthrough, hhead, he, hv, hdraw, _, hout, rfl⟩

/-- Witness for C4 (amended): the out-of-range index buffer [0, 5, 7] and the
in-range one [0, 0, 0] give the same calls, and the element buffer holds
[0, 5, 7] when the draw is issued. -/
theorem C4_index_values_are_not_checked_witness :
    callTrace (World.init sampleEnv)
        (rasterize sampleEnv ⟨[0, 0, 0, 1], [0, 5, 7], 2, 2, 0⟩ (World.init sampleEnv))
      = callTrace (World.init sampleEnv)
        (rasterize sampleEnv ⟨[0, 0, 0, 1], [0, 0, 0], 2, 2, 0⟩ (World.init sampleEnv))
      ∧ (worldAtDraw sampleEnv ⟨[0, 0, 0, 1], [0, 5, 7], 2, 2, 0⟩ (World.init sampleEnv)).ebo
        = [0, 5, 7] :=
  ⟨(C4_index_values_are_not_checked sampleEnv [0, 0, 0, 1] [0, 5, 7] [0, 0, 0] 2 2 0
      (World.init sampleEnv) rfl).2.1,
   ((C4_index_values_are_not_checked sampleEnv [0, 0, 0, 1] [0, 5, 7] [0, 0, 0] 2 2 0
      (World.init sampleEnv) rfl).2.2.2 (by rfl)).2.2.1⟩

/-! ## Arithmetic of the download copy -/

/-- When the `int` product `width * 4` does not overflow, the row size in
bytes is `width * 4 * 4`. -/
theorem rowBytes_eq (W : Nat) (hpos : 0 < W) (hmax : W * 4 < 2 ^ 31) :
    rowBytes (W : Int) = W * 4 * 4 := by
  unfold rowBytes toSizeT wrapInt sizeofFloat
  omega

/-- A positive `int` converts to `size_t` unchanged. -/
theorem toSizeT_eq (H : Nat) (hmax : H < 2 ^ 31) : toSizeT (H : Int) = H := by
  unfold toSizeT
  omega

/-- With pitch equal to the row width the rows of a 2D copy tile the
destination: the bytes written are exactly the first `height * width`. -/
theorem memcpy2DDstBytes_tight (p : Nat) :
    ∀ H : Nat, memcpy2DDstBytes p p H = List.range (H * p) := by
  intro H
  induction H with
  | zero => simp [memcpy2DDstBytes]
  | succ n ih =>
    unfold memcpy2DDstBytes at ih ⊢
    rw [List.range_succ, List.flatMap_append, ih, Nat.succ_mul, List.range_add]
    simp

/-- The bytes a 2D copy writes are those of the `height` rows of `width` bytes. -/
theorem mem_memcpy2DDstBytes (dpitch width height b : Nat) :
    b ∈ memcpy2DDstBytes dpitch width height ↔
      ∃ r < height, ∃ c < width, b = r * dpitch + c := by
  simp only [memcpy2DDstBytes, List.mem_flatMap, List.mem_range, List.mem_map]
  constructor
  · rintro ⟨r, hr, c, hc, rfl⟩
    exact ⟨r, hr, c, hc, rfl⟩
  · rintro ⟨r, hr, c, hc, rfl⟩
    exact ⟨r, hr, c, hc, rfl⟩

/-- For rows that do not overlap, the written bytes are those whose row and
column, computed as in `memcpy2DFromArray`, lie inside the copied region. -/
theorem mem_memcpy2DDstBytes_iff (dpitch width height b : Nat) (hle : width ≤ dpitch)
    (hpos : 0 < dpitch) :
    b ∈ memcpy2DDstBytes dpitch width height ↔ b / dpitch < height ∧ b % dpitch < width := by
  rw [mem_memcpy2DDstBytes]
  constructor
  · rintro ⟨r, hr, c, hc, rfl⟩
    have hcp : c < dpitch := lt_of_lt_of_le hc hle
    have h1 : (r * dpitch + c) / dpitch = r := by
      rw [Nat.add_comm, Nat.add_mul_div_right _ _ hpos, Nat.div_eq_of_lt hcp, Nat.zero_add]
    have h2 : (r * dpitch + c) % dpitch = c := by
      rw [Nat.add_comm, Nat.add_mul_mod_self_right, Nat.mod_eq_of_lt hcp]
    rw [h1, h2]
    exact ⟨hr, hc⟩
  · rintro ⟨hr, hc⟩
    refine ⟨b / dpitch, hr, b % dpitch, hc, ?_⟩
    rw [Nat.mul_comm]
    exact (Nat.div_add_mod b dpitch).symm

/-- Reading back element `[y][x][k]` after a tight 2D copy of `H` rows of `W`
texels gives channel `k` of texel `(x, y)`. -/
theorem memcpy2DFromArray_flatIndex (dst : Nat → ℚ) (img : Image) (W H x y k : Nat)
    (hx : x < W) (hy : y < H) (hk : k < 4) :
    memcpy2DFromArray dst (W * 4 * 4) img 0 0 (W * 4 * 4) H (flatIndex W y x k)
      = (img x y).chan k := by
  have h4 : 4 * flatIndex W y x k = (16 * x + 4 * k) + (W * 4 * 4) * y := by
    unfold flatIndex; ring
  have hlt : 16 * x + 4 * k < W * 4 * 4 := by omega
  have hpos : 0 < W * 4 * 4 := by omega
  have hrow : 4 * flatIndex W y x k / (W * 4 * 4) = y := by
    rw [h4, Nat.add_mul_div_left _ _ hpos, Nat.div_eq_of_lt hlt, Nat.zero_add]
  have hcol : 4 * flatIndex W y x k % (W * 4 * 4) = 16 * x + 4 * k := by
    rw [h4, Nat.add_mul_mod_self_left, Nat.mod_eq_of_lt hlt]
  have hxx : (16 * x + 4 * k) / 16 = x := by omega
  have hkk : (16 * x + 4 * k) / 4 % 4 = k := by omega
  simp only [memcpy2DFromArray, hrow, hcol, hy, hlt, and_self, if_true, hxx, hkk, Nat.zero_add]

/-! ## Contents of the output -/

/-- After a list of triangles a pixel either is covered by none of them and
keeps its value, or holds `(a, b, c, 1)` for the weights of one of them. -/
theorem foldl_drawTriangle_pixel (env : Env) (vbo : List ℚ) (x y : Nat) :
    ∀ (tris : List (Nat × Nat × Nat)) (img : Image),
      ((∀ t ∈ tris, covers env vbo t x y = false)
          ∧ tris.foldl (drawTriangle env vbo) img x y = img x y)
        ∨ ∃ t ∈ tris, ∃ wt,
            env.cover (trianglePositions env vbo t).1 (trianglePositions env vbo t).2.1
              (trianglePositions env vbo t).2.2 x y = some wt
            ∧ tris.foldl (drawTriangle env vbo) img x y = ⟨wt.a, wt.b, wt.c, 1⟩ := by
  intro tris
  induction tris with
  | nil => intro img; left; simp
  | cons t rest ih =>
    intro img
    rcases ih (drawTriangle env vbo img t) with ⟨hnone, hval⟩ | ⟨t1, ht1, wt, hc, hval⟩
    · cases hcov : env.cover (trianglePositions env vbo t).1 (trianglePositions env vbo t).2.1
          (trianglePositions env vbo t).2.2 x y with
      | none =>
        left
        refine ⟨?_, ?_⟩
        · intro t1 ht1
          rcases List.mem_cons.mp ht1 with h | h
          · subst h; simp [covers, hcov]
          · exact hnone t1 h
        · rw [List.foldl_cons, hval, drawTriangle_pixel, hcov]
      | some wt =>
        right
        refine ⟨t, List.mem_cons_self _ _, wt, hcov, ?_⟩
        rw [List.foldl_cons, hval, drawTriangle_pixel, hcov]
    · right
      exact ⟨t1, List.mem_cons_of_mem _ ht1, wt, hc, by rw [List.foldl_cons, hval]⟩

/-- The draw leaves a pixel that no triangle covers as it was. -/
theorem drawElements_uncovered (env : Env) (vbo : List ℚ) (ebo : List Nat) (img : Image)
    (x y : Nat) (hout : ∀ t ∈ assembleTriangles ebo, covers env vbo t x y = false) :
    drawElements env vbo ebo ebo.length img x y = img x y := by
  unfold drawElements
  rw [List.take_length]
  rcases foldl_drawTriangle_pixel env vbo x y (assembleTriangles ebo) img with
    ⟨_, h⟩ | ⟨t, ht, wt, hc, _⟩
  · exact h
  · have := hout t ht
    simp [covers, hc] at this

/-- The draw leaves in a pixel that some triangle covers the weights of one
of the triangles covering it, with 1 in the fourth channel. -/
theorem drawElements_covered (env : Env) (vbo : List ℚ) (ebo : List Nat) (img : Image)
    (x y : Nat) (hin : ∃ t ∈ assembleTriangles ebo, covers env vbo t x y = true) :
    ∃ t ∈ assembleTriangles ebo, ∃ wt,
      env.cover (trianglePositions env vbo t).1 (trianglePositions env vbo t).2.1
        (trianglePositions env vbo t).2.2 x y = some wt
      ∧ drawElements env vbo ebo ebo.length img x y = ⟨wt.a, wt.b, wt.c, 1⟩ := by
  unfold drawElements
  rw [List.take_length]
  rcases foldl_drawTriangle_pixel env vbo x y (assembleTriangles ebo) img with
    ⟨hnone, _⟩ | h
  · obtain ⟨t, ht, hc⟩ := hin
    rw [hnone t ht] at hc
    cases hc
  · exact h

/-- Element `[y][x][k]` of the tensor returned by `rasterize` is channel `k` of
pixel `(x, y)` of the image left by the clear and the draw. -/
theorem result_pixel (env : Env) (inp : Inputs) (w : World) (W H x y : Nat)
    (hW : inp.width = W) (hH : inp.height = H) (hWpos : 0 < W)
    (hWmax : W * 4 < 2 ^ 31) (hHmax : H < 2 ^ 31)
    (hret : (rasterize env inp w).isReturned = true)
    (hx : x < W) (hy : y < H) :
    ∃ t, (rasterize env inp w).result = some t
      ∧ ∀ k < 4, t.data (flatIndex W y x k) =
          (drawElements env inp.vertices inp.indices inp.indices.length
            (fun _ _ => background) x y).chan k := by
  have h := finalWorld_out env inp w
  rw [rasterize_of_isReturned env inp w hret]
  simp only [Outcome.result]
  refine ⟨_, h, ?_⟩
  intro k hk
  simp only [hW, hH, rowBytes_eq W hWpos hWmax, toSizeT_eq H hHmax]
  exact memcpy2DFromArray_flatIndex _ _ W H x y k hx hy hk

/-- Every flat index is the index of the element `[y][x][k]` it denotes. -/
theorem flatIndex_decompose (W i : Nat) :
    flatIndex W (i / 4 / W) (i / 4 % W) (i % 4) = i := by
  unfold flatIndex
  rw [Nat.mul_comm (i / 4 / W) W, Nat.div_add_mod (i / 4) W]
  omega

/-- A tight 2D copy of `H` rows of `W` texels leaves the destination past
element `H * W * 4` as it was. -/
theorem memcpy2DFromArray_beyond (dst : Nat → ℚ) (img : Image) (W H i : Nat)
    (hpos : 0 < W) (hi : H * W * 4 ≤ i) :
    memcpy2DFromArray dst (W * 4 * 4) img 0 0 (W * 4 * 4) H i = dst i := by
  have hp : 0 < W * 4 * 4 := by omega
  have hrow : H ≤ 4 * i / (W * 4 * 4) := by
    rw [Nat.le_div_iff_mul_le hp]
    calc H * (W * 4 * 4) = 4 * (H * W * 4) := by ring
      _ ≤ 4 * i := Nat.mul_le_mul_left 4 hi
  have hnot : ¬ (4 * i / (W * 4 * 4) < H ∧ 4 * i % (W * 4 * 4) < W * 4 * 4) := by
    intro h
    omega
  simp only [memcpy2DFromArray, hnot, if_false]

/-- C8: for width > 0 and height > 0 whose product width * 4 does not overflow
`int` (so that width * 4 * sizeof(float) does not overflow either), the one
download copy of rasterize has destination pitch and row width both equal to
width * 4 * 4 bytes and copies height rows from offset (0, 0); the rows tile
the bytes 0 .. height * width * 4 * 4 - 1, the byte length of the
(height, width, 4) float32 tensor; and in the tensor a returning call hands
back, every element i < height * width * 4 has been written by the copy with
channel i % 4 of texel (i / 4 % width, i / 4 / width) of the rendered image,
while the storage from element height * width * 4 on is as the allocation left
it: nothing is written past the end. -/
theorem C8_download_copy_fills_output (env : Env) (inp : Inputs) (w : World) (W H : Nat)
    (hW : inp.width = W) (hH : inp.height = H) (hWpos : 0 < W) (hHpos : 0 < H)
    (hWmax : W * 4 < 2 ^ 31) (hHmax : H < 2 ^ 31) :
    downloadCopies (rasterizeOps env inp) = [(W * 4 * 4, 0, 0, W * 4 * 4, H)]
      ∧ memcpy2DDstBytes (W * 4 * 4) (W * 4 * 4) H = List.range (H * W * 4 * 4)
      ∧ (memcpy2DDstBytes (W * 4 * 4) (W * 4 * 4) H).length = H * W * 4 * 4
      ∧ tensorBytes [inp.height, inp.width, 4] sizeofFloat = ((H * W * 4 * 4 : Nat) : Int)
      ∧ (∀ b, b ∈ memcpy2DDstBytes (W * 4 * 4) (W * 4 * 4) H ↔
          b / (W * 4 * 4) < H ∧ b % (W * 4 * 4) < W * 4 * 4)
      ∧ ((rasterize env inp w).isReturned = true →
          ∃ t, (rasterize env inp w).result = some t
            ∧ t.sizes = [(H : Int), (W : Int), 4]
            ∧ (∀ i, i < H * W * 4 →
                t.data i =
                  (drawElements env inp.vertices inp.indices inp.indices.length
                    (fun _ _ => background) (i / 4 % W) (i / 4 / W)).chan (i % 4))
            ∧ (∀ i, H * W * 4 ≤ i → t.data i = env.undefFloat i)) := by
  have _ := hHpos
  have hbytes : memcpy2DDstBytes (W * 4 * 4) (W * 4 * 4) H = List.range (H * W * 4 * 4) := by
    rw [memcpy2DDstBytes_tight]
    congr 1
    ring
  refine ⟨?_, hbytes, ?_, ?_, ?_, ?_⟩
  · cases hc : env.framebufferComplete <;>
      simp [downloadCopies, rasterizeOps, hc, hW, hH, rowBytes_eq W hWpos hWmax,
        toSizeT_eq H hHmax]
  · rw [hbytes, List.length_range]
  · simp [tensorBytes, hW, hH, sizeofFloat]
    ring
  · intro b
    exact mem_memcpy2DDstBytes_iff _ _ _ b (le_refl _) (by omega)
  · intro hret
    have h := finalWorld_out env inp w
    rw [rasterize_of_isReturned env inp w hret]
    simp only [Outcome.result]
    refine ⟨_, h, by simp [hW, hH], ?_, ?_⟩
    · intro i hi
      simp only [hW, hH, rowBytes_eq W hWpos hWmax, toSizeT_eq H hHmax]
      have hx : i / 4 % W < W := Nat.mod_lt _ hWpos
      have hy : i / 4 / W < H := by
        rw [Nat.div_lt_iff_lt_mul hWpos]
        omega
      have hk : i % 4 < 4 := Nat.mod_lt _ (by decide)
      have hmem := memcpy2DFromArray_flatIndex env.undefFloat
        (drawElements env inp.vertices inp.indices inp.indices.length (fun _ _ => background))
        W H (i / 4 % W) (i / 4 / W) (i % 4) hx hy hk
      rw [flatIndex_decompose] at hmem
      exact hmem
    · intro i hi
      simp only [hW, hH, rowBytes_eq W hWpos hWmax, toSizeT_eq H hHmax]
      exact memcpy2DFromArray_beyond _ _ W H i hWpos hi

/-- Witness for C8 on the sample call: one copy of 4 rows of 64 bytes; element
34, channel 2 of pixel (0, 2), is written, and element 64 is left as allocated. -/
theorem C8_download_copy_fills_output_witness :
    downloadCopies (rasterizeOps sampleEnv sampleInputs) = [(4 * 4 * 4, 0, 0, 4 * 4 * 4, 4)]
      ∧ ∃ t, (rasterize sampleEnv sampleInputs (World.init sampleEnv)).result = some t
          ∧ t.data 34 =
              (drawElements sampleEnv sampleInputs.vertices sampleInputs.indices
                sampleInputs.indices.length (fun _ _ => background) 0 2).chan 2
          ∧ t.data 64 = sampleEnv.undefFloat 64 := by
  have h := C8_download_copy_fills_output sampleEnv sampleInputs (World.init sampleEnv) 4 4
    rfl rfl (by decide) (by decide) (by decide) (by decide)
  obtain ⟨t, ht, _, hin, hout⟩ := h.2.2.2.2.2 (by rfl)
  exact ⟨h.1, t, ht, hin 34 (by decide), hout 64 (by decide)⟩

/-- C2: for every valid input (4 floats per vertex, 3 indices per triangle,
every index in range, positive sizes within `int`) and every call that returns,
each of the four channels of an output pixel that no input triangle covers
equals the corresponding channel of the background (1, 1, 0, 1) exactly; with
an empty index buffer this holds for every pixel. -/
theorem C2_uncovered_pixel_is_background (env : Env) (inp : Inputs) (w : World)
    (W H x y k : Nat)
    (hW : inp.width = W) (hH : inp.height = H) (hWpos : 0 < W) (hHpos : 0 < H)
    (hWmax : W * 4 < 2 ^ 31) (hHmax : H < 2 ^ 31)
    (hv : inp.vertices.length % 4 = 0) (hi : inp.indices.length % 3 = 0)
    (hrange : ∀ i ∈ inp.indices, i < inp.vertices.length / 4)
    (hret : (rasterize env inp w).isReturned = true)
    (hx : x < W) (hy : y < H) (hk : k < 4)
    (hout : ∀ t ∈ assembleTriangles inp.indices, covers env inp.vertices t x y = false) :
    background = ⟨1, 1, 0, 1⟩
      ∧ ∃ t, (rasterize env inp w).result = some t
          ∧ t.data (flatIndex W y x k) = background.chan k := by
  have _ := hHpos
  have _ := hv
  have _ := hi
  have _ := hrange
  obtain ⟨t, ht, hd⟩ := result_pixel env inp w W H x y hW hH hWpos hWmax hHmax hret hx hy
  refine ⟨rfl, t, ht, ?_⟩
  rw [hd k hk, drawElements_uncovered env _ _ _ x y hout]

/-- The reference rasterizer does not cover pixel (0, 3) of the sample triangle. -/
theorem sample_uncovered_0_3 :
    ∀ t ∈ assembleTriangles sampleInputs.indices,
      covers sampleEnv sampleInputs.vertices t 0 3 = false := by
  intro t ht
  simp only [sampleInputs, assembleTriangles, List.mem_singleton] at ht
  subst ht
  norm_num [covers, sampleEnv, sampleInputs, trianglePositions, fetchVertex, centreCover, edgeFn]

/-- Witness for C2: the top-left pixel of the sample call is background in
its second channel. -/
theorem C2_uncovered_pixel_is_background_witness :
    ∃ t, (rasterize sampleEnv sampleInputs (World.init sampleEnv)).result = some t
      ∧ t.data (flatIndex 4 3 0 1) = background.chan 1 :=
  (C2_uncovered_pixel_is_background sampleEnv sampleInputs (World.init sampleEnv) 4 4 0 3 1
    rfl rfl (by decide) (by decide) (by decide) (by decide) (by decide) (by decide)
    (by decide) (by rfl) (by decide) (by decide) (by decide) sample_uncovered_0_3).2

/-- With an empty index buffer every pixel of the output is background. -/
theorem empty_index_buffer_all_background (env : Env) (inp : Inputs) (w : World)
    (W H x y k : Nat)
    (hW : inp.width = W) (hH : inp.height = H) (hWpos : 0 < W)
    (hWmax : W * 4 < 2 ^ 31) (hHmax : H < 2 ^ 31) (hempty : inp.indices = [])
    (hret : (rasterize env inp w).isReturned = true)
    (hx : x < W) (hy : y < H) (hk : k < 4) :
    ∃ t, (rasterize env inp w).result = some t
      ∧ t.data (flatIndex W y x k) = background.chan k := by
  obtain ⟨t, ht, hd⟩ := result_pixel env inp w W H x y hW hH hWpos hWmax hHmax hret hx hy
  refine ⟨t, ht, ?_⟩
  rw [hd k hk, drawElements_uncovered env _ _ _ x y (by simp [hempty, assembleTriangles])]

/-- The weights of the reference rasterizer sum to 1. -/
theorem centreCover_sum (W H : Nat) (p0 p1 p2 : Vec4) (x y : Nat) (wt : Weights)
    (h : centreCover W H p0 p1 p2 x y = some wt) : wt.a + wt.b + wt.c = 1 := by
  unfold centreCover at h
  simp only at h
  split_ifs at h with hc
  obtain ⟨harea, _⟩ := hc
  cases h
  simp only
  rw [← add_div, ← add_div, div_eq_one_iff_eq harea]
  unfold edgeFn
  ring

/-- C10: for every valid input and every call that returns, the fourth channel
of every output pixel, covered or not, is 1, as is the fourth channel of the
background; and when the rasterizer's weights sum to 1, the first three
channels of a covered pixel sum to 1 whereas the background's sum to 2, so a
covered pixel never equals the background. -/
theorem C10_alpha_is_one_everywhere (env : Env) (inp : Inputs) (w : World)
    (W H x y : Nat)
    (hW : inp.width = W) (hH : inp.height = H) (hWpos : 0 < W) (hHpos : 0 < H)
    (hWmax : W * 4 < 2 ^ 31) (hHmax : H < 2 ^ 31)
    (hv : inp.vertices.length % 4 = 0) (hi : inp.indices.length % 3 = 0)
    (hrange : ∀ i ∈ inp.indices, i < inp.vertices.length / 4)
    (hret : (rasterize env inp w).isReturned = true)
    (hx : x < W) (hy : y < H) :
    ∃ t, (rasterize env inp w).result = some t
      ∧ t.data (flatIndex W y x 3) = 1
      ∧ background.chan 3 = 1
      ∧ background.chan 0 + background.chan 1 + background.chan 2 = 2
      ∧ ((∃ tri ∈ assembleTriangles inp.indices, covers env inp.vertices tri x y = true) →
          (∀ p0 p1 p2 px py wt,
            env.cover p0 p1 p2 px py = some wt → wt.a + wt.b + wt.c = 1) →
          t.data (flatIndex W y x 0) + t.data (flatIndex W y x 1) + t.data (flatIndex W y x 2) = 1
          ∧ ¬ (∀ k < 4, t.data (flatIndex W y x k) = background.chan k)) := by
  have _ := hHpos
  have _ := hv
  have _ := hi
  have _ := hrange
  obtain ⟨t, ht, hd⟩ := result_pixel env inp w W H x y hW hH hWpos hWmax hHmax hret hx hy
  have hbg : background.chan 0 + background.chan 1 + background.chan 2 = 2 := by
    norm_num [background, Vec4.chan]
  refine ⟨t, ht, ?_, rfl, hbg, ?_⟩
  · rw [hd 3 (by decide)]
    rcases foldl_drawTriangle_pixel env inp.vertices x y
        (assembleTriangles (inp.indices.take inp.indices.length)) (fun _ _ => background) with
      ⟨_, h⟩ | ⟨_, _, wt, _, h⟩
    · unfold drawElements; rw [h]; rfl
    · unfold drawElements; rw [h]; rfl
  · intro hin hsum
    obtain ⟨tri, _, wt, hc, hval⟩ :=
      drawElements_covered env inp.vertices inp.indices (fun _ _ => background) x y hin
    have hs := hsum _ _ _ _ _ _ hc
    have hone : t.data (flatIndex W y x 0) + t.data (flatIndex W y x 1)
        + t.data (flatIndex W y x 2) = 1 := by
      rw [hd 0 (by decide), hd 1 (by decide), hd 2 (by decide), hval]
      exact hs
    refine ⟨hone, ?_⟩
    intro hall
    rw [hall 0 (by decide), hall 1 (by decide), hall 2 (by decide), hbg] at hone
    norm_num at hone

/-- The reference rasterizer covers pixel (2, 0) of the sample triangle. -/
theorem sample_covered_2_0 :
    ∃ tri ∈ assembleTriangles sampleInputs.indices,
      covers sampleEnv sampleInputs.vertices tri 2 0 = true := by
  refine ⟨(0, 1, 2), by simp [sampleInputs, assembleTriangles], ?_⟩
  simp only [covers, sample_cover_2_0, Option.isSome_some]

/-- Witness for C10: pixel (2, 0) of the sample call is covered, has fourth
channel 1, and differs from the background. -/
theorem C10_alpha_is_one_everywhere_witness :
    ∃ t, (rasterize sampleEnv sampleInputs (World.init sampleEnv)).result = some t
      ∧ t.data (flatIndex 4 0 2 3) = 1
      ∧ ¬ (∀ k < 4, t.data (flatIndex 4 0 2 k) = background.chan k) := by
  obtain ⟨t, ht, h3, _, _, hcov⟩ :=
    C10_alpha_is_one_everywhere sampleEnv sampleInputs (World.init sampleEnv) 4 4 2 0
      rfl rfl (by decide) (by decide) (by decide) (by decide) (by decide) (by decide)
      (by decide) (by rfl) (by decide) (by decide)
  exact ⟨t, ht, h3, (hcov sample_covered_2_0
    (fun p0 p1 p2 px py wt h => centreCover_sum 4 4 p0 p1 p2 px py wt h)).2⟩

end OptiHead
